import Mathlib

/-!
Verification of the multicast UDP replay tool (`tools/main.py`) against its
natural-language specification.  The Python source is shallowly embedded:
payloads are lists of byte values (`List Nat`, each `< 256` in valid inputs),
machine arithmetic uses `Nat`/`Int` with explicit masking, IPv4 addresses are
four-octet records, and the stateful replay loop is modelled as explicit
state-passing recursion parameterised by oracles for the values the loop reads
from the outside world (membership snapshots, clock readings, random draws).
-/

/-! ### RTP payload recognition and sequence patching (`is_rtp_packet`, `patch_rtp_sequence`) -/

/-- Embedding of `is_rtp_packet` (main.py lines 24-26): a payload is an RTP
packet when it has at least 12 bytes and the top two bits of byte 0 are `10`. -/
def is_rtp_packet (payload : List Nat) : Bool :=
  decide (12 ≤ payload.length) && (payload.getD 0 0 &&& 0xC0 == 0x80)

/-- Embedding of `patch_rtp_sequence` (main.py lines 29-49): rewrite the
16-bit big-endian sequence number at bytes 2-3 by adding `seq_offset`
modulo 2^16 (Python's `& 0xFFFF` on a possibly negative int); non-RTP
payloads are returned unchanged.  `Int.emod` matches Python `%`/`&` on
negative operands. -/
def patch_rtp_sequence (payload : List Nat) (seq_offset : Int) : List Nat :=
  if is_rtp_packet payload then
    let orig_seq : Nat := (payload.getD 2 0) <<< 8 ||| payload.getD 3 0
    let new_seq : Nat := (((orig_seq : Int) + seq_offset) % 65536).toNat
    (payload.set 2 ((new_seq >>> 8) &&& 0xFF)).set 3 (new_seq &&& 0xFF)
  else payload

/-- The 16-bit big-endian sequence number held in bytes 2-3 of a payload,
as the specification describes it. -/
def rtp_seq (payload : List Nat) : Nat :=
  256 * payload.getD 2 0 + payload.getD 3 0

/-- The sequence-number value `patch_rtp_sequence` writes back: the packet's
current big-endian sequence plus the offset, reduced modulo 2^16. -/
def patched_seq (p : List Nat) (off : Int) : Nat :=
  ((((p.getD 2 0) <<< 8 ||| p.getD 3 0 : Nat) : Int) + off) % 65536 |>.toNat

/-! ### IPv4 addresses and subnet containment (`is_ip_in_subnet`) -/

structure IPv4 where
  o0 : Nat
  o1 : Nat
  o2 : Nat
  o3 : Nat
deriving DecidableEq, Repr

/-- Validity of a dotted-quad address: each octet fits in a byte. -/
def IPv4.valid (ip : IPv4) : Prop :=
  ip.o0 < 256 ∧ ip.o1 < 256 ∧ ip.o2 < 256 ∧ ip.o3 < 256

instance (ip : IPv4) : Decidable ip.valid := by
  unfold IPv4.valid
  infer_instance

/-- The 32-bit integer form of an address, as built in `is_ip_in_subnet`
(main.py lines 215-223). -/
def ip_to_int (ip : IPv4) : Nat :=
  ip.o0 <<< 24 ||| ip.o1 <<< 16 ||| ip.o2 <<< 8 ||| ip.o3

/-- The prefix mask `(0xFFFFFFFF << (32 - prefix_len)) & 0xFFFFFFFF`
(main.py line 225). -/
def subnet_mask (prefix_len : Nat) : Nat :=
  (0xFFFFFFFF <<< (32 - prefix_len)) &&& 0xFFFFFFFF

/-- Embedding of `is_ip_in_subnet` (main.py lines 207-226): mask comparison
of the integer forms of the address and the network address. -/
def is_ip_in_subnet (ip net : IPv4) (prefix_len : Nat) : Bool :=
  ip_to_int ip &&& subnet_mask prefix_len == ip_to_int net &&& subnet_mask prefix_len

/-! ### IGMP monitor, subnet mode (`get_igmp_joined_groups`, `IGMPMonitor.run`) -/

/-- Embedding of `get_igmp_joined_groups` (main.py lines 229-257): from the
kernel table's decoded member addresses, keep exactly those contained in at
least one configured subnet, as a set. -/
def get_igmp_joined_groups (subnets : List (IPv4 × Nat)) (kernel : List IPv4) :
    Finset IPv4 :=
  (kernel.filter fun ip => subnets.any fun s => is_ip_in_subnet ip s.1 s.2).toFinset

structure PollResult where
  joins : Finset IPv4
  leaves : Finset IPv4
  active : Finset IPv4
deriving DecidableEq

/-- One subnet-mode poll of `IGMPMonitor.run` (main.py lines 341-360): joins
are `current - active`, leaves are `active - current`, and the stored active
set becomes the current snapshot. -/
def monitor_poll (subnets : List (IPv4 × Nat)) (active : Finset IPv4)
    (kernel : List IPv4) : PollResult :=
  let current := get_igmp_joined_groups subnets kernel
  ⟨current \ active, active \ current, current⟩

/-- The monitor's active set after a sequence of polls, starting from the
empty set (`_active_groups` initialisation, main.py line 316). -/
def monitor_run (subnets : List (IPv4 × Nat)) (kernels : List (List IPv4)) :
    Finset IPv4 :=
  kernels.foldl (fun act k => (monitor_poll subnets act k).active) ∅

/-! ### Packet records and the main entry point (`PacketInfo`, `main`) -/

structure PacketInfo where
  timestamp : Rat
  payload : List Nat
  dst_addr : IPv4
  dst_port : Nat
deriving DecidableEq

/-- The environment `main` (main.py lines 737-802) observes: whether the
capture file exists, the three numeric arguments, the outcome of loading
the capture (`none` models an exception) and whether socket setup succeeds. -/
structure ReplayEnv where
  file_exists : Bool
  loss : Rat
  reorder : Rat
  speed : Rat
  load_result : Option (List PacketInfo)
  socket_ok : Bool

/-- Embedding of `main` (main.py lines 737-802): the returned process exit
code as a function of the observed environment.  When all preconditions
hold, `replay_loop` runs and returns (also on a caught keyboard interrupt)
and `main` returns 0. -/
def main_exit_code (e : ReplayEnv) : Nat :=
  if ¬ e.file_exists = true then 1
  else if ¬ (0 ≤ e.loss ∧ e.loss ≤ 100) then 1
  else if ¬ (0 ≤ e.reorder ∧ e.reorder ≤ 100) then 1
  else if ¬ (0 < e.speed) then 1
  else
    match e.load_result with
    | none => 1
    | some packets =>
        if packets.isEmpty then 1
        else if ¬ e.socket_ok = true then 1
        else 0

/-- The disjunction of precondition failures named by the specification. -/
def precondition_failure (e : ReplayEnv) : Prop :=
  ¬ e.file_exists = true ∨ ¬ (0 ≤ e.loss ∧ e.loss ≤ 100) ∨
    ¬ (0 ≤ e.reorder ∧ e.reorder ≤ 100) ∨ ¬ (0 < e.speed) ∨
    e.load_result = none ∨ e.load_result = some [] ∨ ¬ e.socket_ok = true

/-! ### Replay engine, fast path (`replay_loop`, main.py lines 527-578) -/

/-- One datagram send of the fast path, tagged with the index of the packet
record it replays. -/
structure FastSend where
  idx : Nat
  addr : IPv4
  port : Nat
  payload : List Nat
deriving DecidableEq

/-- The unrolled per-target send of `replay_loop` (main.py lines 552-576):
special-cased bodies for one and two targets, a loop otherwise. -/
def unrolledFanout {α : Type} (target_list : List IPv4) (mk : IPv4 → α) : List α :=
  if target_list.length = 1 then [mk (target_list.getD 0 ⟨0, 0, 0, 0⟩)]
  else if target_list.length = 2 then
    [mk (target_list.getD 0 ⟨0, 0, 0, 0⟩), mk (target_list.getD 1 ⟨0, 0, 0, 0⟩)]
  else target_list.map mk

/-- The continuous-mode patching step of `replay_loop` (main.py lines
546-550): patch only when continuous mode is on, the port has a tracked
offset, and that offset is positive. -/
def continuous_patch (continuous : Bool) (offs : Nat → Option Nat)
    (payload : List Nat) (port : Nat) : List Nat :=
  if continuous then
    match offs port with
    | some offset => if 0 < offset then patch_rtp_sequence payload (offset : Int) else payload
    | none => payload
  else payload

/-- Embedding of the fast path of `replay_loop` (main.py lines 527-578):
`g` is the oracle giving the joined-target snapshot returned by
`get_target_addresses` at packet index `i`; `next` is
`next_target_refresh`; an empty refreshed snapshot breaks out of the pass.
The result is the ordered list of datagram sends. -/
def fastPassAux (g : Nat → List IPv4) (continuous : Bool) (offs : Nat → Option Nat) :
    List (List Nat × Nat) → Nat → Nat → List IPv4 → List FastSend
  | [], _, _, _ => []
  | (payload, port) :: rest, i, next, tl =>
      if next ≤ i then
        let ts := g i
        if ts.isEmpty then []
        else
          unrolledFanout ts
              (fun a => ⟨i, a, port, continuous_patch continuous offs payload port⟩) ++
            fastPassAux g continuous offs rest (i + 1) (i + 500) ts
      else
        unrolledFanout tl
            (fun a => ⟨i, a, port, continuous_patch continuous offs payload port⟩) ++
          fastPassAux g continuous offs rest (i + 1) next tl

/-- A full fast-path pass, started as in the source with `i = 0`,
`next_target_refresh = 500` and the pass's initial target list. -/
def fastPass (g : Nat → List IPv4) (continuous : Bool) (offs : Nat → Option Nat)
    (packs : List (List Nat × Nat)) (tl0 : List IPv4) : List FastSend :=
  fastPassAux g continuous offs packs 0 500 tl0

/-- The joined-target snapshot in force for packet index `i`: the initial
list for the first 500 records, afterwards the oracle value at the most
recent refresh index (the largest multiple of 500 at or below `i`). -/
def target_snapshot (g : Nat → List IPv4) (tl0 : List IPv4) (i : Nat) : List IPv4 :=
  if i < 500 then tl0 else g (500 * (i / 500))

/-- Specification-side description of a fast-path pass: record `i`, in
order, is sent exactly once to each address of its current snapshot, on the
record's destination port. -/
def fastSpec (g : Nat → List IPv4) (tl0 : List IPv4) (continuous : Bool)
    (offs : Nat → Option Nat) : List (List Nat × Nat) → Nat → List FastSend
  | [], _ => []
  | (payload, port) :: rest, i =>
      (target_snapshot g tl0 i).map
          (fun a => ⟨i, a, port, continuous_patch continuous offs payload port⟩) ++
        fastSpec g tl0 continuous offs rest (i + 1)

/-! ### Continuous-mode per-port sequence offsets (main.py lines 409-416, 707-709) -/

/-- Embedding of the `stream_rtp_counts` construction (main.py lines
411-414): the number of RTP packet records in the capture per destination
port. -/
def stream_rtp_count (packs : List (List Nat × Nat)) (port : Nat) : Nat :=
  (packs.filter fun pp => is_rtp_packet pp.1 && pp.2 == port).length

/-- Embedding of the `stream_seq_offsets` initialisation (main.py lines
410-416): ports with at least one RTP record start at offset 0; other ports
are untracked. -/
def init_seq_offsets (packs : List (List Nat × Nat)) : Nat → Option Nat :=
  fun port => if 0 < stream_rtp_count packs port then some 0 else none

/-- Embedding of the end-of-pass update in continuous mode (main.py lines
707-709): every tracked port's offset grows by that port's per-pass RTP
record count. -/
def update_seq_offsets (packs : List (List Nat × Nat)) (offs : Nat → Option Nat) :
    Nat → Option Nat :=
  fun port =>
    if 0 < stream_rtp_count packs port then
      (offs port).map (· + stream_rtp_count packs port)
    else offs port

/-- The offsets in force at the start of pass `k + 1`, i.e. after `k`
end-of-pass updates. -/
def offsets_after (packs : List (List Nat × Nat)) : Nat → Nat → Option Nat
  | 0 => init_seq_offsets packs
  | k + 1 => update_seq_offsets packs (offsets_after packs k)

/-! ### Replay engine, slow path with loss/reorder simulation (main.py lines 580-693) -/

/-- A reorder-buffer entry (main.py line 629): delayed payload, its port,
its release time, and the target list captured at delay time. -/
structure ReorderEntry where
  payload : List Nat
  port : Nat
  time : Rat
  targets : List IPv4
deriving DecidableEq

/-- One datagram send of the slow path. -/
structure SlowSend where
  addr : IPv4
  port : Nat
  payload : List Nat
deriving DecidableEq

/-- The sends produced by releasing one reorder-buffer entry: one datagram
per captured target (main.py lines 610-611). -/
def entry_fanout (e : ReorderEntry) : List SlowSend :=
  e.targets.map fun a => ⟨a, e.port, e.payload⟩

/-- The reorder-buffer scan of one tick (main.py lines 603-617): entries
whose release time has passed are sent in buffer order to their captured
targets and removed; the others remain in order.  Returns the remaining
buffer and the released sends. -/
def process_reorder_buffer (now : Rat) :
    List ReorderEntry → List ReorderEntry × List SlowSend
  | [] => ([], [])
  | e :: rest =>
      let pr := process_reorder_buffer now rest
      if e.time ≤ now then (pr.1, entry_fanout e ++ pr.2)
      else (e :: pr.1, pr.2)

/-- The slow-path loop state: the send trace (entries released from the
reorder buffer are tagged `true`), the reorder buffer, every entry ever
placed into the buffer (instrumentation), and the counters of
`replay_loop`. -/
structure SlowState where
  sends : List (Bool × SlowSend)
  buffer : List ReorderEntry
  enqueued : List ReorderEntry
  packets_sent : Nat
  packets_dropped : Nat
  packets_reordered : Nat
  bytes_sent : Nat
deriving DecidableEq

def init_slow_state : SlowState := ⟨[], [], [], 0, 0, 0, 0⟩

def sum_lens (l : List SlowSend) : Nat := (l.map fun s => s.payload.length).sum

/-- One iteration of the slow-path loop body for the current record
(main.py lines 591-669): read the clock, release due reorder-buffer
entries, then either drop the record, delay it (capturing the current
target list), or patch and fan it out to the current targets. -/
def slowStep (nowAt lossDraw reorderDraw delayDraw : Nat → Rat)
    (loss_rate reorder_rate : Rat) (continuous : Bool) (offs : Nat → Option Nat)
    (payload : List Nat) (port i : Nat) (tl : List IPv4) (st : SlowState) :
    SlowState :=
  let now := nowAt i
  let pr := process_reorder_buffer now st.buffer
  let st1 : SlowState := { st with
    buffer := pr.1,
    sends := st.sends ++ pr.2.map fun s => (true, s),
    packets_sent := st.packets_sent + pr.2.length,
    bytes_sent := st.bytes_sent + sum_lens pr.2 }
  if 0 < loss_rate ∧ lossDraw i * 100 < loss_rate then
    { st1 with packets_dropped := st1.packets_dropped + 1 }
  else if 0 < reorder_rate ∧ reorderDraw i * 100 < reorder_rate then
    let e : ReorderEntry := ⟨payload, port, now + delayDraw i, tl⟩
    { st1 with
      buffer := st1.buffer ++ [e],
      enqueued := st1.enqueued ++ [e],
      packets_reordered := st1.packets_reordered + 1 }
  else
    let pl := continuous_patch continuous offs payload port
    let fs := unrolledFanout tl fun a => (⟨a, port, pl⟩ : SlowSend)
    { st1 with
      sends := st1.sends ++ fs.map fun s => (false, s),
      packets_sent := st1.packets_sent + fs.length,
      bytes_sent := st1.bytes_sent + pl.length * fs.length }

/-- Embedding of the slow-path loop of `replay_loop` (main.py lines
580-669), with the same target-refresh schedule as the fast path; an empty
refreshed snapshot breaks out of the loop. -/
def slowPassAux (g : Nat → List IPv4) (nowAt lossDraw reorderDraw delayDraw : Nat → Rat)
    (loss_rate reorder_rate : Rat) (continuous : Bool) (offs : Nat → Option Nat) :
    List (List Nat × Nat) → Nat → Nat → List IPv4 → SlowState → SlowState
  | [], _, _, _, st => st
  | (payload, port) :: rest, i, next, tl, st =>
      if next ≤ i then
        let ts := g i
        if ts.isEmpty then st
        else
          slowPassAux g nowAt lossDraw reorderDraw delayDraw loss_rate reorder_rate
            continuous offs rest (i + 1) (i + 500) ts
            (slowStep nowAt lossDraw reorderDraw delayDraw loss_rate reorder_rate
              continuous offs payload port i ts st)
      else
        slowPassAux g nowAt lossDraw reorderDraw delayDraw loss_rate reorder_rate
          continuous offs rest (i + 1) next tl
          (slowStep nowAt lossDraw reorderDraw delayDraw loss_rate reorder_rate
            continuous offs payload port i tl st)

/-- The end-of-pass flush (main.py lines 687-693): every remaining
reorder-buffer entry is sent unconditionally to its captured targets. -/
def slow_pass_flush (st : SlowState) : SlowState :=
  { st with
    sends := st.sends ++ (st.buffer.flatMap entry_fanout).map fun s => (true, s),
    packets_sent := st.packets_sent + (st.buffer.flatMap entry_fanout).length,
    bytes_sent := st.bytes_sent + sum_lens (st.buffer.flatMap entry_fanout),
    buffer := [] }

/-- A complete slow-path pass: the loop from the source's initial state
followed by the flush. -/
def slowPass (g : Nat → List IPv4) (nowAt lossDraw reorderDraw delayDraw : Nat → Rat)
    (loss_rate reorder_rate : Rat) (continuous : Bool) (offs : Nat → Option Nat)
    (packs : List (List Nat × Nat)) (tl0 : List IPv4) : SlowState :=
  slow_pass_flush (slowPassAux g nowAt lossDraw reorderDraw delayDraw loss_rate
    reorder_rate continuous offs packs 0 500 tl0 init_slow_state)

/-- The delayed sends of a trace: those released from the reorder buffer. -/
def delayed_sends (st : SlowState) : List SlowSend :=
  (st.sends.filter fun s => s.1).map fun s => s.2

/-! ### Proofs -/

theorem shiftLeft8_lor_eq_add {x y : Nat} (hy : y < 256) :
    (x <<< 8) ||| y = 256 * x + y := by
  have h256 : y < 2 ^ 8 := by simpa using hy
  calc (x <<< 8) ||| y = x * 2 ^ 8 ||| y := by rw [Nat.shiftLeft_eq]
    _ = 2 ^ 8 * x ||| y := by rw [Nat.mul_comm]
    _ = 2 ^ 8 * x + y := (Nat.mul_add_lt_is_or h256 x).symm
    _ = 256 * x + y := by norm_num

theorem and_255_eq_mod (x : Nat) : x &&& 0xFF = x % 256 := by
  have h := Nat.and_pow_two_sub_one_eq_mod x 8
  norm_num at h
  exact h

theorem list_set_getD_self (l : List Nat) (i : Nat) (h : i < l.length) :
    l.set i (l.getD i 0) = l := by
  apply List.ext_getElem?
  intro n
  by_cases hn : i = n
  · subst hn
    rw [List.getElem?_set_self (by simpa using h)]
    simp [List.getD_eq_getElem?_getD, List.getElem?_eq_getElem h]
  · rw [List.getElem?_set_ne hn]

theorem rtp_seq_eq_lor (p : List Nat) (h3 : p.getD 3 0 < 256) :
    (p.getD 2 0) <<< 8 ||| p.getD 3 0 = rtp_seq p := by
  rw [shiftLeft8_lor_eq_add h3, rtp_seq]

theorem patched_seq_lt (p : List Nat) (off : Int) : patched_seq p off < 65536 := by
  unfold patched_seq
  have h1 : (0 : Int) ≤ (((p.getD 2 0) <<< 8 ||| p.getD 3 0 : Nat) + off) % 65536 :=
    Int.emod_nonneg _ (by norm_num)
  have h2 : (((p.getD 2 0) <<< 8 ||| p.getD 3 0 : Nat) + off) % 65536 < 65536 :=
    Int.emod_lt_of_pos _ (by norm_num)
  omega

theorem patch_eq_of_rtp (p : List Nat) (off : Int) (h : is_rtp_packet p = true) :
    patch_rtp_sequence p off =
      (p.set 2 (patched_seq p off / 256)).set 3 (patched_seq p off % 256) := by
  have hlt := patched_seq_lt p off
  unfold patch_rtp_sequence
  rw [if_pos h]
  have hhi : (patched_seq p off >>> 8) &&& 0xFF = patched_seq p off / 256 := by
    rw [Nat.shiftRight_eq_div_pow, and_255_eq_mod]
    have h8 : (2 : Nat) ^ 8 = 256 := by norm_num
    rw [h8, Nat.mod_eq_of_lt (by omega)]
  have hlo : patched_seq p off &&& 0xFF = patched_seq p off % 256 := and_255_eq_mod _
  show (p.set 2 (patched_seq p off >>> 8 &&& 0xFF)).set 3 (patched_seq p off &&& 0xFF)
      = (p.set 2 (patched_seq p off / 256)).set 3 (patched_seq p off % 256)
  rw [hhi, hlo]

theorem patch_not_rtp (p : List Nat) (off : Int) (h : ¬ is_rtp_packet p = true) :
    patch_rtp_sequence p off = p := by
  unfold patch_rtp_sequence
  rw [if_neg h]

theorem is_rtp_length {p : List Nat} (h : is_rtp_packet p = true) : 12 ≤ p.length := by
  simp only [is_rtp_packet, Bool.and_eq_true, decide_eq_true_eq] at h
  exact h.1

theorem getD_mem_of_lt (l : List Nat) (i : Nat) (h : i < l.length) : l.getD i 0 ∈ l := by
  have heq : l.getD i 0 = l[i] := by
    simp [List.getD_eq_getElem?_getD, List.getElem?_eq_getElem h]
  rw [heq]
  exact List.getElem_mem h

theorem patched_seq_eq_rtp (p : List Nat) (off : Int) (h3 : p.getD 3 0 < 256) :
    patched_seq p off = (((rtp_seq p : Int) + off) % 65536).toNat := by
  unfold patched_seq
  rw [rtp_seq_eq_lor p h3]

theorem patch_getD_two {p : List Nat} (off : Int) (h : is_rtp_packet p = true) :
    (patch_rtp_sequence p off).getD 2 0 = patched_seq p off / 256 := by
  have hlen := is_rtp_length h
  rw [patch_eq_of_rtp p off h]
  simp only [List.getD_eq_getElem?_getD]
  rw [List.getElem?_set_ne (by decide : (3 : Nat) ≠ 2),
    List.getElem?_set_self (by omega)]
  rfl

theorem patch_getD_three {p : List Nat} (off : Int) (h : is_rtp_packet p = true) :
    (patch_rtp_sequence p off).getD 3 0 = patched_seq p off % 256 := by
  have hlen := is_rtp_length h
  rw [patch_eq_of_rtp p off h]
  simp only [List.getD_eq_getElem?_getD]
  rw [List.getElem?_set_self (by simp; omega)]
  rfl

theorem patch_getD_other {p : List Nat} (off : Int) (h : is_rtp_packet p = true)
    (i : Nat) (h2 : i ≠ 2) (h3 : i ≠ 3) :
    (patch_rtp_sequence p off).getD i 0 = p.getD i 0 := by
  rw [patch_eq_of_rtp p off h]
  simp only [List.getD_eq_getElem?_getD]
  rw [List.getElem?_set_ne (fun hh => h3 hh.symm),
    List.getElem?_set_ne (fun hh => h2 hh.symm)]

theorem patch_length (p : List Nat) (off : Int) :
    (patch_rtp_sequence p off).length = p.length := by
  by_cases h : is_rtp_packet p = true
  · rw [patch_eq_of_rtp p off h]
    simp
  · rw [patch_not_rtp p off h]

theorem patch_zero_eq {p : List Nat} (h : is_rtp_packet p = true)
    (hb2 : p.getD 2 0 < 256) (hb3 : p.getD 3 0 < 256) :
    patch_rtp_sequence p 0 = p := by
  have hlen := is_rtp_length h
  have hseq : patched_seq p 0 = 256 * p.getD 2 0 + p.getD 3 0 := by
    rw [patched_seq_eq_rtp p 0 hb3, rtp_seq]
    omega
  rw [patch_eq_of_rtp p 0 h, hseq]
  have hdiv : (256 * p.getD 2 0 + p.getD 3 0) / 256 = p.getD 2 0 := by omega
  have hmod : (256 * p.getD 2 0 + p.getD 3 0) % 256 = p.getD 3 0 := by omega
  rw [hdiv, hmod, list_set_getD_self p 2 (by omega),
    list_set_getD_self p 3 (by omega)]

theorem is_rtp_patch (p : List Nat) (off : Int) :
    is_rtp_packet (patch_rtp_sequence p off) = is_rtp_packet p := by
  by_cases h : is_rtp_packet p = true
  · have h0 := patch_getD_other off h 0 (by decide) (by decide)
    simp only [is_rtp_packet, patch_length, h0]
  · rw [patch_not_rtp p off h]

theorem patch_patch (p : List Nat) (a b : Int) :
    patch_rtp_sequence (patch_rtp_sequence p a) b = patch_rtp_sequence p (a + b) := by
  by_cases h : is_rtp_packet p = true
  · have hq : is_rtp_packet (patch_rtp_sequence p a) = true := by
      rw [is_rtp_patch]
      exact h
    have hseq : patched_seq (patch_rtp_sequence p a) b = patched_seq p (a + b) := by
      have h2 := patch_getD_two a h
      have h3 := patch_getD_three a h
      have hml : patched_seq p a % 256 < 256 := Nat.mod_lt _ (by norm_num)
      have hlor : (patch_rtp_sequence p a).getD 2 0 <<< 8 |||
          (patch_rtp_sequence p a).getD 3 0 = patched_seq p a := by
        rw [h2, h3, shiftLeft8_lor_eq_add hml, Nat.div_add_mod]
      unfold patched_seq
      rw [hlor]
      have hnn : (0 : Int) ≤
          (((p.getD 2 0) <<< 8 ||| p.getD 3 0 : Nat) + a) % 65536 :=
        Int.emod_nonneg _ (by norm_num)
      have hcast : ((patched_seq p a : Nat) : Int) =
          (((p.getD 2 0) <<< 8 ||| p.getD 3 0 : Nat) + a) % 65536 := by
        unfold patched_seq
        exact Int.toNat_of_nonneg hnn
      rw [hcast]
      omega
    rw [patch_eq_of_rtp _ b hq, patch_eq_of_rtp p (a + b) h, hseq,
      patch_eq_of_rtp p a h]
    rw [List.set_comm _ _ _ (by decide : (3 : Nat) ≠ 2), List.set_set, List.set_set]
  · rw [patch_not_rtp p a h, patch_not_rtp p b h, patch_not_rtp p (a + b) h]

/-- C2: for an RTP payload (at least 12 bytes, version bits `10` in byte 0)
and any integer offset, `patch_rtp_sequence` keeps the length, writes the
big-endian value (original sequence + offset) mod 65536 into bytes 2-3,
leaves every other byte unchanged, and is the identity at offset 0; any
payload not meeting the RTP condition passes through unchanged. -/
theorem patch_rtp_sequence_correct (p : List Nat) (off : Int)
    (hb : ∀ b ∈ p, b < 256) :
    (is_rtp_packet p = false → patch_rtp_sequence p off = p) ∧
    (is_rtp_packet p = true →
      (patch_rtp_sequence p off).length = p.length ∧
      (patch_rtp_sequence p off).getD 2 0 =
        (((rtp_seq p : Int) + off) % 65536).toNat / 256 ∧
      (patch_rtp_sequence p off).getD 3 0 =
        (((rtp_seq p : Int) + off) % 65536).toNat % 256 ∧
      (∀ i, i ≠ 2 → i ≠ 3 → (patch_rtp_sequence p off).getD i 0 = p.getD i 0) ∧
      patch_rtp_sequence p 0 = p) := by
  constructor
  · intro h
    exact patch_not_rtp p off (by simp [h])
  · intro h
    have hlen := is_rtp_length h
    have hb2 : p.getD 2 0 < 256 := hb _ (getD_mem_of_lt p 2 (by omega))
    have hb3 : p.getD 3 0 < 256 := hb _ (getD_mem_of_lt p 3 (by omega))
    refine ⟨patch_length p off, ?_, ?_,
      fun i h2 h3 => patch_getD_other off h i h2 h3, patch_zero_eq h hb2 hb3⟩
    · rw [patch_getD_two off h, patched_seq_eq_rtp p off hb3]
    · rw [patch_getD_three off h, patched_seq_eq_rtp p off hb3]

/-- Witness for C2: a 12-byte RTP payload with sequence 65535 patched by
offset 1 wraps to sequence 0. -/
theorem patch_rtp_sequence_correct_witness :
    (patch_rtp_sequence [0x80, 0, 0xFF, 0xFF, 0, 0, 0, 0, 0, 0, 0, 0] 1).getD 2 0 = 0 ∧
    (patch_rtp_sequence [0x80, 0, 0xFF, 0xFF, 0, 0, 0, 0, 0, 0, 0, 0] 1).getD 3 0 = 0 := by
  have h := (patch_rtp_sequence_correct [0x80, 0, 0xFF, 0xFF, 0, 0, 0, 0, 0, 0, 0, 0] 1
    (by decide)).2 (by decide)
  exact ⟨h.2.1.trans (by decide), h.2.2.1.trans (by decide)⟩

/-- C10: patching preserves the payload length and the RTP version test
(only bytes 2-3 change), and composing two patches equals a single patch by
the summed offset. -/
theorem patch_rtp_sequence_compose (p : List Nat) (a b : Nat) :
    (patch_rtp_sequence p (a : Int)).length = p.length ∧
    is_rtp_packet (patch_rtp_sequence p (a : Int)) = is_rtp_packet p ∧
    patch_rtp_sequence (patch_rtp_sequence p (a : Int)) (b : Int) =
      patch_rtp_sequence p ((a + b : Nat) : Int) := by
  refine ⟨patch_length p a, is_rtp_patch p a, ?_⟩
  rw [patch_patch, Nat.cast_add]

theorem land_mask_shift (x p k : Nat) :
    x &&& ((2 ^ p - 1) <<< k) = ((x >>> k) &&& (2 ^ p - 1)) <<< k := by
  apply Nat.eq_of_testBit_eq
  intro j
  by_cases hkj : k ≤ j
  · have hj : k + (j - k) = j := by omega
    simp [Nat.testBit_and, Nat.testBit_shiftLeft, Nat.testBit_shiftRight, hkj, hj,
      Bool.and_left_comm, Bool.and_comm, Bool.and_assoc]
  · simp [Nat.testBit_and, Nat.testBit_shiftLeft, hkj]

theorem subnet_mask_eq {p : Nat} (hp : p ≤ 32) :
    subnet_mask p = (2 ^ p - 1) <<< (32 - p) := by
  have h32 : (0xFFFFFFFF : Nat) = 2 ^ 32 - 1 := by norm_num
  unfold subnet_mask
  rw [h32]
  apply Nat.eq_of_testBit_eq
  intro j
  simp only [Nat.testBit_and, Nat.testBit_shiftLeft, Nat.testBit_two_pow_sub_one]
  rw [Bool.eq_iff_iff]
  simp only [Bool.and_eq_true, decide_eq_true_eq, ge_iff_le]
  omega

theorem land_mask_eq_iff {x y p : Nat} (hx : x < 2 ^ 32) (hy : y < 2 ^ 32)
    (hp : p ≤ 32) :
    (x &&& subnet_mask p = y &&& subnet_mask p) ↔
      x >>> (32 - p) = y >>> (32 - p) := by
  rw [subnet_mask_eq hp, land_mask_shift, land_mask_shift]
  have hpow : (2 : Nat) ^ 32 = 2 ^ (32 - p) * 2 ^ p := by
    rw [← Nat.pow_add]
    congr 1
    omega
  have hxp : x >>> (32 - p) < 2 ^ p := by
    rw [Nat.shiftRight_eq_div_pow]
    apply Nat.div_lt_of_lt_mul
    rw [← hpow]
    exact hx
  have hyp : y >>> (32 - p) < 2 ^ p := by
    rw [Nat.shiftRight_eq_div_pow]
    apply Nat.div_lt_of_lt_mul
    rw [← hpow]
    exact hy
  rw [Nat.and_pow_two_sub_one_of_lt_two_pow hxp,
    Nat.and_pow_two_sub_one_of_lt_two_pow hyp]
  constructor
  · intro h
    rw [Nat.shiftLeft_eq, Nat.shiftLeft_eq] at h
    exact Nat.eq_of_mul_eq_mul_right (Nat.two_pow_pos _) h
  · intro h
    rw [h]

theorem ip_to_int_lt {ip : IPv4} (h : ip.valid) : ip_to_int ip < 2 ^ 32 := by
  obtain ⟨h0, h1, h2, h3⟩ := h
  have b0 : ip.o0 <<< 24 < 2 ^ 32 := by
    rw [Nat.shiftLeft_eq]
    norm_num
    omega
  have b1 : ip.o1 <<< 16 < 2 ^ 32 := by
    rw [Nat.shiftLeft_eq]
    norm_num
    omega
  have b2 : ip.o2 <<< 8 < 2 ^ 32 := by
    rw [Nat.shiftLeft_eq]
    norm_num
    omega
  have b3 : ip.o3 < 2 ^ 32 := by
    norm_num
    omega
  exact Nat.or_lt_two_pow (Nat.or_lt_two_pow (Nat.or_lt_two_pow b0 b1) b2) b3

/-- C5: for valid dotted-quad addresses and any prefix length up to 32,
`is_ip_in_subnet` returns true exactly when the address and the network
address agree on the top `p` bits of their 32-bit integer forms. -/
theorem is_ip_in_subnet_correct (ip net : IPv4) (p : Nat)
    (hip : ip.valid) (hnet : net.valid) (hp : p ≤ 32) :
    is_ip_in_subnet ip net p = true ↔
      ip_to_int ip / 2 ^ (32 - p) = ip_to_int net / 2 ^ (32 - p) := by
  unfold is_ip_in_subnet
  rw [beq_iff_eq, land_mask_eq_iff (ip_to_int_lt hip) (ip_to_int_lt hnet) hp,
    Nat.shiftRight_eq_div_pow, Nat.shiftRight_eq_div_pow]

/-- Witness for C5: 239.81.0.200 is contained in 239.81.0.0/24 and is not
contained in 239.82.0.0/24. -/
theorem is_ip_in_subnet_correct_witness :
    is_ip_in_subnet ⟨239, 81, 0, 200⟩ ⟨239, 81, 0, 0⟩ 24 = true ∧
    is_ip_in_subnet ⟨239, 81, 0, 200⟩ ⟨239, 82, 0, 0⟩ 24 = false := by
  constructor
  · exact (is_ip_in_subnet_correct ⟨239, 81, 0, 200⟩ ⟨239, 81, 0, 0⟩ 24
      (by decide) (by decide) (by decide)).2 (by decide)
  · have h := is_ip_in_subnet_correct ⟨239, 81, 0, 200⟩ ⟨239, 82, 0, 0⟩ 24
      (by decide) (by decide) (by decide)
    have hne : ¬ (ip_to_int ⟨239, 81, 0, 200⟩ / 2 ^ (32 - 24)
        = ip_to_int ⟨239, 82, 0, 0⟩ / 2 ^ (32 - 24)) := by decide
    cases hb : is_ip_in_subnet ⟨239, 81, 0, 200⟩ ⟨239, 82, 0, 0⟩ 24
    · rfl
    · exact absurd (h.1 hb) hne

/-- C4: a subnet-mode poll reports a join for an address exactly when it is
in the current kernel snapshot restricted to the configured subnets and not
in the previously reported snapshot, reports a leave exactly when it was
previously reported and is absent from the current restricted snapshot, and
afterwards the reported set equals the current restricted snapshot. -/
theorem monitor_poll_correct (subnets : List (IPv4 × Nat)) (prev : Finset IPv4)
    (kernel : List IPv4) (a : IPv4) :
    (a ∈ (monitor_poll subnets prev kernel).joins ↔
      (a ∈ kernel ∧ (∃ s ∈ subnets, is_ip_in_subnet a s.1 s.2 = true) ∧ a ∉ prev)) ∧
    (a ∈ (monitor_poll subnets prev kernel).leaves ↔
      (a ∈ prev ∧ ¬ (a ∈ kernel ∧ ∃ s ∈ subnets, is_ip_in_subnet a s.1 s.2 = true))) ∧
    (monitor_poll subnets prev kernel).active = get_igmp_joined_groups subnets kernel := by
  refine ⟨?_, ?_, rfl⟩
  · simp only [monitor_poll, get_igmp_joined_groups, Finset.mem_sdiff,
      List.mem_toFinset, List.mem_filter, List.any_eq_true]
    tauto
  · simp only [monitor_poll, get_igmp_joined_groups, Finset.mem_sdiff,
      List.mem_toFinset, List.mem_filter, List.any_eq_true]

/-- C8: after any subnet-mode poll the reported active set contains only
addresses inside at least one configured subnet, and this invariant holds
after any sequence of polls starting from the empty set. -/
theorem monitor_active_within_subnets (subnets : List (IPv4 × Nat)) :
    (∀ (st : Finset IPv4) (kernel : List IPv4) (a : IPv4),
      a ∈ (monitor_poll subnets st kernel).active →
        ∃ s ∈ subnets, is_ip_in_subnet a s.1 s.2 = true) ∧
    (∀ (kernels : List (List IPv4)) (a : IPv4),
      a ∈ monitor_run subnets kernels →
        ∃ s ∈ subnets, is_ip_in_subnet a s.1 s.2 = true) := by
  have hsnap : ∀ (st : Finset IPv4) (kernel : List IPv4) (a : IPv4),
      a ∈ (monitor_poll subnets st kernel).active →
        ∃ s ∈ subnets, is_ip_in_subnet a s.1 s.2 = true := by
    intro st kernel a ha
    simp only [monitor_poll, get_igmp_joined_groups, List.mem_toFinset,
      List.mem_filter, List.any_eq_true] at ha
    exact ha.2
  refine ⟨hsnap, ?_⟩
  have hfold : ∀ (kernels : List (List IPv4)) (st : Finset IPv4),
      (∀ a ∈ st, ∃ s ∈ subnets, is_ip_in_subnet a s.1 s.2 = true) →
      ∀ a ∈ kernels.foldl (fun act k => (monitor_poll subnets act k).active) st,
        ∃ s ∈ subnets, is_ip_in_subnet a s.1 s.2 = true := by
    intro kernels
    induction kernels with
    | nil => intro st hst a ha; exact hst a ha
    | cons k ks ih =>
        intro st _ a ha
        exact ih _ (fun b hb => hsnap st k b hb) a ha
  intro kernels a ha
  exact hfold kernels ∅ (by simp) a ha

/-- Witness for C8: with subnet 239.81.0.0/24 configured and a kernel
snapshot containing 239.81.0.5, the address reported after the poll lies in
a configured subnet. -/
theorem monitor_active_within_subnets_witness :
    (⟨239, 81, 0, 5⟩ : IPv4) ∈
      monitor_run [(⟨239, 81, 0, 0⟩, 24)] [[⟨239, 81, 0, 5⟩]] ∧
    ∃ s ∈ [((⟨239, 81, 0, 0⟩ : IPv4), 24)],
      is_ip_in_subnet ⟨239, 81, 0, 5⟩ s.1 s.2 = true := by
  refine ⟨by decide, ?_⟩
  exact (monitor_active_within_subnets [(⟨239, 81, 0, 0⟩, 24)]).2
    [[⟨239, 81, 0, 5⟩]] ⟨239, 81, 0, 5⟩ (by decide)

/-- C9: `main` returns exit code 1 exactly on a precondition failure
(missing file, percentage outside 0-100, non-positive speed, load failure
or empty usable-packet list, socket setup failure) and exit code 0
otherwise. -/
theorem main_exit_code_correct (e : ReplayEnv) :
    (main_exit_code e = 1 ↔ precondition_failure e) ∧
    (main_exit_code e = 0 ↔ ¬ precondition_failure e) := by
  obtain ⟨fe, lo, re, sp, lr, so⟩ := e
  rcases lr with _ | ps
  · simp only [main_exit_code, precondition_failure]
    split_ifs <;> simp_all
  · by_cases hps : ps = []
    · subst hps
      simp only [main_exit_code, precondition_failure]
      split_ifs <;> simp_all
    · simp only [main_exit_code, precondition_failure]
      split_ifs <;> simp_all [List.isEmpty_iff, hps]

theorem unrolledFanout_eq_map {α : Type} (target_list : List IPv4) (mk : IPv4 → α) :
    unrolledFanout target_list mk = target_list.map mk := by
  rcases target_list with _ | ⟨a, _ | ⟨b, _ | ⟨c, rest⟩⟩⟩ <;>
    simp [unrolledFanout]

theorem target_snapshot_head {g : Nat → List IPv4} {tl0 : List IPv4} {i : Nat}
    (h500 : 500 ≤ i) (hmod : i % 500 = 0) : target_snapshot g tl0 i = g i := by
  unfold target_snapshot
  rw [if_neg (by omega)]
  congr 1
  omega

theorem fastPassAux_eq_spec (g : Nat → List IPv4) (tl0 : List IPv4)
    (continuous : Bool) (offs : Nat → Option Nat) (hg : ∀ j, g j ≠ []) :
    ∀ (packs : List (List Nat × Nat)) (i next : Nat) (tl : List IPv4),
      500 ≤ next → next % 500 = 0 → i ≤ next →
      (∀ j, i ≤ j → j < next → target_snapshot g tl0 j = tl) →
      fastPassAux g continuous offs packs i next tl =
        fastSpec g tl0 continuous offs packs i := by
  intro packs
  induction packs with
  | nil => intro i next tl _ _ _ _; rfl
  | cons pp rest ih =>
      obtain ⟨payload, port⟩ := pp
      intro i next tl h500 hmod hle hsnap
      by_cases href : next ≤ i
      · have hi : i = next := le_antisymm hle href
        have hmodi : i % 500 = 0 := by omega
        have h500i : 500 ≤ i := by omega
        have hne : ¬ (g i).isEmpty = true := by
          simpa [List.isEmpty_iff] using hg i
        rw [fastPassAux, if_pos href, if_neg hne, fastSpec,
          unrolledFanout_eq_map, target_snapshot_head h500i hmodi]
        congr 1
        apply ih (i + 1) (i + 500) (g i) (by omega) (by omega) (by omega)
        intro j hj1 hj2
        unfold target_snapshot
        rw [if_neg (by omega)]
        congr 1
        omega
      · rw [fastPassAux, if_neg href]
        rw [fastSpec]
        congr 1
        · rw [unrolledFanout_eq_map, hsnap i le_rfl (by omega)]
        · exact ih (i + 1) next tl h500 hmod (by omega)
            (fun j hj1 hj2 => hsnap j (by omega) hj2)

theorem fastSpec_idx_ge (g : Nat → List IPv4) (tl0 : List IPv4) (c : Bool)
    (offs : Nat → Option Nat) :
    ∀ (packs : List (List Nat × Nat)) (i0 : Nat) (s : FastSend),
      s ∈ fastSpec g tl0 c offs packs i0 → i0 ≤ s.idx := by
  intro packs
  induction packs with
  | nil =>
      intro i0 s hs
      simp [fastSpec] at hs
  | cons pp rest ih =>
      obtain ⟨payload, port⟩ := pp
      intro i0 s hs
      rw [fastSpec] at hs
      rcases List.mem_append.1 hs with h | h
      · obtain ⟨a, ha, rfl⟩ := List.mem_map.1 h
        exact le_rfl
      · exact le_trans (by omega) (ih (i0 + 1) s h)

theorem fastSpec_count (g : Nat → List IPv4) (tl0 : List IPv4) (c : Bool)
    (offs : Nat → Option Nat) (hnd0 : tl0.Nodup) (hndg : ∀ j, (g j).Nodup) :
    ∀ (packs : List (List Nat × Nat)) (i0 k : Nat) (payload : List Nat)
      (port : Nat) (a : IPv4),
      packs[k]? = some (payload, port) →
      (fastSpec g tl0 c offs packs i0).count
          ⟨i0 + k, a, port, continuous_patch c offs payload port⟩ =
        if a ∈ target_snapshot g tl0 (i0 + k) then 1 else 0 := by
  intro packs
  induction packs with
  | nil =>
      intro i0 k payload port a h
      simp at h
  | cons pp rest ih =>
      obtain ⟨pl0, pt0⟩ := pp
      intro i0 k payload port a h
      rw [fastSpec, List.count_append]
      cases k with
      | zero =>
          simp only [List.getElem?_cons_zero, Option.some_inj, Prod.mk.injEq] at h
          obtain ⟨h1, h2⟩ := h
          subst h1
          subst h2
          simp only [Nat.add_zero]
          have hrest : (fastSpec g tl0 c offs rest (i0 + 1)).count
              ⟨i0, a, pt0, continuous_patch c offs pl0 pt0⟩ = 0 := by
            apply List.count_eq_zero_of_not_mem
            intro hmem
            have hge := fastSpec_idx_ge g tl0 c offs rest (i0 + 1) _ hmem
            have hidx : (⟨i0, a, pt0, continuous_patch c offs pl0 pt0⟩ : FastSend).idx = i0 :=
              rfl
            rw [hidx] at hge
            omega
          rw [hrest]
          have hinj : Function.Injective
              (fun x : IPv4 =>
                (⟨i0, x, pt0, continuous_patch c offs pl0 pt0⟩ : FastSend)) := by
            intro x y hxy
            simpa using congrArg FastSend.addr hxy
          rw [List.count_map_of_injective _ _ hinj]
          have hnd : (target_snapshot g tl0 i0).Nodup := by
            unfold target_snapshot
            by_cases hi : i0 < 500
            · rw [if_pos hi]
              exact hnd0
            · rw [if_neg hi]
              exact hndg _
          by_cases hmem : a ∈ target_snapshot g tl0 i0
          · rw [if_pos hmem, List.count_eq_one_of_mem hnd hmem]
          · rw [if_neg hmem, List.count_eq_zero_of_not_mem hmem]
      | succ k' =>
          have hmap : (List.map
              (fun a' => (⟨i0, a', pt0, continuous_patch c offs pl0 pt0⟩ : FastSend))
              (target_snapshot g tl0 i0)).count
                ⟨i0 + (k' + 1), a, port, continuous_patch c offs payload port⟩ = 0 := by
            apply List.count_eq_zero_of_not_mem
            intro hmem
            obtain ⟨x, hx, heq⟩ := List.mem_map.1 hmem
            have hidx : i0 = i0 + (k' + 1) := congrArg FastSend.idx heq
            omega
          rw [hmap]
          have h' : rest[k']? = some (payload, port) := by simpa using h
          have hih := ih (i0 + 1) k' payload port a h'
          rw [show i0 + 1 + k' = i0 + (k' + 1) by omega] at hih
          rw [hih, Nat.zero_add]

/-- C1: with loss and reorder disabled, a fast-path pass whose refreshed
target snapshots are never empty sends every packet record exactly once to
each address of the snapshot current at that record (on the record's
destination port), in record order with no drops or duplicates, and the
unrolled one/two-target send branches behave exactly like iterating over
the target list. -/
theorem fast_path_replay_correct (g : Nat → List IPv4) (tl0 : List IPv4)
    (continuous : Bool) (offs : Nat → Option Nat) (packs : List (List Nat × Nat))
    (hg : ∀ j, g j ≠ []) :
    (∀ (tl : List IPv4) (mk : IPv4 → FastSend), unrolledFanout tl mk = tl.map mk) ∧
    fastPass g continuous offs packs tl0 = fastSpec g tl0 continuous offs packs 0 ∧
    (tl0.Nodup → (∀ j, (g j).Nodup) →
      ∀ (k : Nat) (payload : List Nat) (port : Nat) (a : IPv4),
        packs[k]? = some (payload, port) →
        (fastPass g continuous offs packs tl0).count
            ⟨k, a, port, continuous_patch continuous offs payload port⟩ =
          if a ∈ target_snapshot g tl0 k then 1 else 0) := by
  have heq : fastPass g continuous offs packs tl0 =
      fastSpec g tl0 continuous offs packs 0 := by
    unfold fastPass
    apply fastPassAux_eq_spec g tl0 continuous offs hg packs 0 500 tl0
      (by omega) (by omega) (by omega)
    intro j hj1 hj2
    unfold target_snapshot
    rw [if_pos (by omega)]
  refine ⟨fun tl mk => unrolledFanout_eq_map tl mk, heq, ?_⟩
  intro hnd0 hndg k payload port a hk
  rw [heq]
  have h := fastSpec_count g tl0 continuous offs hnd0 hndg packs 0 k payload port a hk
  simpa using h

/-- Witness for C1: a two-record capture replayed to a single joined target
produces exactly one in-order send per record. -/
theorem fast_path_replay_correct_witness :
    fastPass (fun _ => [⟨239, 81, 0, 1⟩]) false (fun _ => none)
        [([1], 5000), ([2], 5000)] [⟨239, 81, 0, 1⟩] =
      [⟨0, ⟨239, 81, 0, 1⟩, 5000, [1]⟩, ⟨1, ⟨239, 81, 0, 1⟩, 5000, [2]⟩] := by
  have h := (fast_path_replay_correct (fun _ => [⟨239, 81, 0, 1⟩]) [⟨239, 81, 0, 1⟩]
    false (fun _ => none) [([1], 5000), ([2], 5000)] (fun j => by simp)).2.1
  exact h.trans (by decide)

theorem is_rtp_continuous_patch (c : Bool) (offs : Nat → Option Nat)
    (payload : List Nat) (port : Nat) :
    is_rtp_packet (continuous_patch c offs payload port) = is_rtp_packet payload := by
  cases c with
  | false => rfl
  | true =>
      cases hoffs : offs port with
      | none => simp [continuous_patch, hoffs]
      | some o =>
          by_cases ho : 0 < o
          · simp [continuous_patch, hoffs, ho, is_rtp_patch]
          · simp [continuous_patch, hoffs, ho]

theorem const_target_snapshot (a : IPv4) (i : Nat) :
    target_snapshot (fun _ => [a]) [a] i = [a] := by
  unfold target_snapshot
  split <;> rfl

theorem fastSpec_rtp_filter_count (a : IPv4) (c : Bool) (offs : Nat → Option Nat)
    (port : Nat) :
    ∀ (packs : List (List Nat × Nat)) (i0 : Nat),
      ((fastSpec (fun _ => [a]) [a] c offs packs i0).filter
          (fun s => is_rtp_packet s.payload && s.port == port)).length =
        stream_rtp_count packs port := by
  intro packs
  induction packs with
  | nil => intro i0; rfl
  | cons pp rest ih =>
      obtain ⟨payload, pt⟩ := pp
      intro i0
      rw [fastSpec, const_target_snapshot]
      have hP : (is_rtp_packet (continuous_patch c offs payload pt) && (pt == port))
          = (is_rtp_packet payload && (pt == port)) := by
        rw [is_rtp_continuous_patch]
      have hih := ih (i0 + 1)
      unfold stream_rtp_count at hih ⊢
      simp only [List.map_cons, List.map_nil, List.singleton_append, List.filter_cons]
      rw [hP]
      by_cases hb : (is_rtp_packet payload && (pt == port)) = true
      · rw [if_pos hb, if_pos hb]
        simp [hih]
      · rw [if_neg hb, if_neg hb]
        exact hih

theorem offsets_after_eq (packs : List (List Nat × Nat)) :
    ∀ (k : Nat) (port : Nat),
      offsets_after packs k port =
        if 0 < stream_rtp_count packs port then
          some (k * stream_rtp_count packs port)
        else none := by
  intro k
  induction k with
  | zero =>
      intro port
      simp [offsets_after, init_seq_offsets]
  | succ n ih =>
      intro port
      simp only [offsets_after, update_seq_offsets, ih]
      by_cases h : 0 < stream_rtp_count packs port
      · simp only [h, if_true]
        rw [Nat.succ_mul]
        rfl
      · simp [h]

/-- C3: in continuous mode the per-port offset in force before pass `k + 1`
is `k` times that port's per-pass RTP record count (offset 0 for the first
pass, untracked ports stay untracked), and a full single-target fast pass
sends exactly that count of RTP datagrams on the port. -/
theorem continuous_offsets_accumulate (packs : List (List Nat × Nat)) :
    (∀ (k port : Nat),
      offsets_after packs k port =
        if 0 < stream_rtp_count packs port then
          some (k * stream_rtp_count packs port)
        else none) ∧
    (∀ (a : IPv4) (c : Bool) (offs : Nat → Option Nat) (port : Nat),
      ((fastPass (fun _ => [a]) c offs packs [a]).filter
          (fun s => is_rtp_packet s.payload && s.port == port)).length =
        stream_rtp_count packs port) := by
  constructor
  · exact offsets_after_eq packs
  · intro a c offs port
    have heq := fastPassAux_eq_spec (fun _ => [a]) [a] c offs (fun j => by simp)
      packs 0 500 [a] (by omega) (by omega) (by omega)
      (fun j hj1 hj2 => const_target_snapshot a j)
    unfold fastPass
    rw [heq]
    exact fastSpec_rtp_filter_count a c offs port packs 0

theorem process_nil (now : Rat) : process_reorder_buffer now [] = ([], []) := rfl

theorem slowStep_loss100 (nowAt lossDraw reorderDraw delayDraw : Nat → Rat)
    (reorder_rate : Rat) (c : Bool) (offs : Nat → Option Nat)
    (payload : List Nat) (port i : Nat) (tl : List IPv4) (st : SlowState)
    (hbuf : st.buffer = []) (hdraw : lossDraw i < 1) :
    slowStep nowAt lossDraw reorderDraw delayDraw 100 reorder_rate c offs
        payload port i tl st =
      { st with packets_dropped := st.packets_dropped + 1 } := by
  have hcond : (0 : Rat) < 100 ∧ lossDraw i * 100 < 100 := by
    refine ⟨by norm_num, ?_⟩
    have h := mul_lt_mul_of_pos_right hdraw (show (0 : Rat) < 100 by norm_num)
    rwa [one_mul] at h
  simp only [slowStep, hbuf, process_nil]
  rw [if_pos hcond]
  cases st
  simp [sum_lens]

theorem slowPassAux_loss100 (g : Nat → List IPv4)
    (nowAt lossDraw reorderDraw delayDraw : Nat → Rat) (reorder_rate : Rat)
    (c : Bool) (offs : Nat → Option Nat)
    (hdraw : ∀ i, lossDraw i < 1) (hg : ∀ j, g j ≠ []) :
    ∀ (packs : List (List Nat × Nat)) (i next : Nat) (tl : List IPv4) (st : SlowState),
      st.buffer = [] →
      slowPassAux g nowAt lossDraw reorderDraw delayDraw 100 reorder_rate c offs
          packs i next tl st =
        { st with packets_dropped := st.packets_dropped + packs.length } := by
  intro packs
  induction packs with
  | nil =>
      intro i next tl st hbuf
      show st = _
      cases st
      simp
  | cons pp rest ih =>
      obtain ⟨payload, port⟩ := pp
      intro i next tl st hbuf
      rw [slowPassAux]
      by_cases href : next ≤ i
      · rw [if_pos href]
        have hne : ¬ (g i).isEmpty = true := by
          simpa [List.isEmpty_iff] using hg i
        rw [if_neg hne,
          slowStep_loss100 nowAt lossDraw reorderDraw delayDraw reorder_rate c offs
            payload port i (g i) st hbuf (hdraw i),
          ih (i + 1) (i + 500) (g i) _ (by simpa using hbuf)]
        cases st
        simp
        omega
      · rw [if_neg href,
          slowStep_loss100 nowAt lossDraw reorderDraw delayDraw reorder_rate c offs
            payload port i tl st hbuf (hdraw i),
          ih (i + 1) next tl _ (by simpa using hbuf)]
        cases st
        simp
        omega

/-- C6: with loss rate 100 and per-packet uniform draws in [0,1), a slow-path
pass sends nothing: every record takes the loss branch and is counted as
dropped, the reorder buffer never receives an entry, and the sent-packet and
sent-byte counters stay 0. -/
theorem loss100_drops_everything (g : Nat → List IPv4)
    (nowAt lossDraw reorderDraw delayDraw : Nat → Rat) (reorder_rate : Rat)
    (c : Bool) (offs : Nat → Option Nat) (packs : List (List Nat × Nat))
    (tl0 : List IPv4) (hdraw : ∀ i, 0 ≤ lossDraw i ∧ lossDraw i < 1)
    (hg : ∀ j, g j ≠ []) :
    (slowPass g nowAt lossDraw reorderDraw delayDraw 100 reorder_rate c offs
        packs tl0).sends = [] ∧
    (slowPass g nowAt lossDraw reorderDraw delayDraw 100 reorder_rate c offs
        packs tl0).packets_dropped = packs.length ∧
    (slowPass g nowAt lossDraw reorderDraw delayDraw 100 reorder_rate c offs
        packs tl0).packets_reordered = 0 ∧
    (slowPass g nowAt lossDraw reorderDraw delayDraw 100 reorder_rate c offs
        packs tl0).enqueued = [] ∧
    (slowPass g nowAt lossDraw reorderDraw delayDraw 100 reorder_rate c offs
        packs tl0).buffer = [] ∧
    (slowPass g nowAt lossDraw reorderDraw delayDraw 100 reorder_rate c offs
        packs tl0).packets_sent = 0 ∧
    (slowPass g nowAt lossDraw reorderDraw delayDraw 100 reorder_rate c offs
        packs tl0).bytes_sent = 0 := by
  have h := slowPassAux_loss100 g nowAt lossDraw reorderDraw delayDraw reorder_rate
    c offs (fun i => (hdraw i).2) hg packs 0 500 tl0 init_slow_state rfl
  unfold slowPass
  rw [h]
  simp [slow_pass_flush, init_slow_state, sum_lens]

/-- Witness for C6: a concrete two-record pass at loss rate 100 sends
nothing and drops both records. -/
theorem loss100_drops_everything_witness :
    (slowPass (fun _ => [⟨239, 81, 0, 1⟩]) (fun _ => 0) (fun _ => 0) (fun _ => 0)
        (fun _ => 0) 100 0 false (fun _ => none)
        [([1], 5000), ([2], 6000)] [⟨239, 81, 0, 1⟩]).sends = [] ∧
    (slowPass (fun _ => [⟨239, 81, 0, 1⟩]) (fun _ => 0) (fun _ => 0) (fun _ => 0)
        (fun _ => 0) 100 0 false (fun _ => none)
        [([1], 5000), ([2], 6000)] [⟨239, 81, 0, 1⟩]).packets_dropped = 2 ∧
    (slowPass (fun _ => [⟨239, 81, 0, 1⟩]) (fun _ => 0) (fun _ => 0) (fun _ => 0)
        (fun _ => 0) 100 0 false (fun _ => none)
        [([1], 5000), ([2], 6000)] [⟨239, 81, 0, 1⟩]).packets_sent = 0 := by
  have h := loss100_drops_everything (fun _ => [⟨239, 81, 0, 1⟩]) (fun _ => 0)
    (fun _ => 0) (fun _ => 0) (fun _ => 0) 0 false (fun _ => none)
    [([1], 5000), ([2], 6000)] [⟨239, 81, 0, 1⟩]
    (fun i => ⟨le_refl 0, by norm_num⟩) (fun j => by simp)
  exact ⟨h.1, h.2.1, h.2.2.2.2.2.1⟩

theorem process_perm (now : Rat) :
    ∀ buf : List ReorderEntry,
      (↑(buf.flatMap entry_fanout) : Multiset SlowSend) =
        ↑(process_reorder_buffer now buf).2 +
          ↑((process_reorder_buffer now buf).1.flatMap entry_fanout) := by
  intro buf
  induction buf with
  | nil => rfl
  | cons e rest ih =>
      by_cases hle : e.time ≤ now
      · simp only [process_reorder_buffer, List.flatMap_cons]
        rw [if_pos hle]
        show (↑(entry_fanout e ++ rest.flatMap entry_fanout) : Multiset SlowSend) =
          ↑(entry_fanout e ++ (process_reorder_buffer now rest).2) +
            ↑((process_reorder_buffer now rest).1.flatMap entry_fanout)
        rw [← Multiset.coe_add, ← Multiset.coe_add, ih]
        abel
      · simp only [process_reorder_buffer, List.flatMap_cons]
        rw [if_neg hle]
        show (↑(entry_fanout e ++ rest.flatMap entry_fanout) : Multiset SlowSend) =
          ↑(process_reorder_buffer now rest).2 +
            ↑((e :: (process_reorder_buffer now rest).1).flatMap entry_fanout)
        rw [List.flatMap_cons, ← Multiset.coe_add, ← Multiset.coe_add, ih]
        abel

theorem delayed_sends_append_true (sends : List (Bool × SlowSend)) (l : List SlowSend) :
    ((sends ++ l.map fun s => (true, s)).filter fun x => x.1).map (fun x => x.2) =
      ((sends.filter fun x => x.1).map fun x => x.2) ++ l := by
  rw [List.filter_append, List.map_append]
  congr 1
  rw [List.filter_eq_self.mpr ?h]
  case h =>
    intro a ha
    obtain ⟨s, hs, rfl⟩ := List.mem_map.1 ha
    rfl
  rw [List.map_map]
  simp

theorem delayed_sends_append_false (sends : List (Bool × SlowSend)) (l : List SlowSend) :
    ((sends ++ l.map fun s => (false, s)).filter fun x => x.1).map (fun x => x.2) =
      (sends.filter fun x => x.1).map fun x => x.2 := by
  rw [List.filter_append, List.map_append]
  have hnil : (l.map fun s => ((false, s) : Bool × SlowSend)).filter (fun x => x.1) = [] := by
    rw [List.filter_eq_nil_iff]
    intro a ha
    obtain ⟨s, hs, rfl⟩ := List.mem_map.1 ha
    simp
  rw [hnil]
  simp

theorem slowStep_balance (nowAt lossDraw reorderDraw delayDraw : Nat → Rat)
    (loss_rate reorder_rate : Rat) (c : Bool) (offs : Nat → Option Nat)
    (payload : List Nat) (port i : Nat) (tl : List IPv4) (st st' : SlowState)
    (hst' : st' = slowStep nowAt lossDraw reorderDraw delayDraw loss_rate
      reorder_rate c offs payload port i tl st) :
    (↑(delayed_sends st') : Multiset SlowSend) +
        ↑(st'.buffer.flatMap entry_fanout) +
        ↑(st.enqueued.flatMap entry_fanout) =
      ↑(delayed_sends st) + ↑(st.buffer.flatMap entry_fanout) +
        ↑(st'.enqueued.flatMap entry_fanout) := by
  subst hst'
  have hproc := process_perm (nowAt i) st.buffer
  simp only [slowStep]
  by_cases hloss : 0 < loss_rate ∧ lossDraw i * 100 < loss_rate
  · rw [if_pos hloss]
    simp only [delayed_sends]
    rw [delayed_sends_append_true]
    rw [← Multiset.coe_add]
    rw [hproc]
    abel
  · rw [if_neg hloss]
    by_cases hreo : 0 < reorder_rate ∧ reorderDraw i * 100 < reorder_rate
    · rw [if_pos hreo]
      simp only [delayed_sends]
      rw [delayed_sends_append_true]
      rw [List.flatMap_append, List.flatMap_append]
      simp only [List.flatMap_cons, List.flatMap_nil, List.append_nil]
      rw [← Multiset.coe_add, ← Multiset.coe_add, ← Multiset.coe_add]
      rw [hproc]
      abel
    · rw [if_neg hreo]
      simp only [delayed_sends]
      rw [delayed_sends_append_false, delayed_sends_append_true]
      rw [← Multiset.coe_add]
      rw [hproc]
      abel

theorem slowPassAux_balance (g : Nat → List IPv4)
    (nowAt lossDraw reorderDraw delayDraw : Nat → Rat)
    (loss_rate reorder_rate : Rat) (c : Bool) (offs : Nat → Option Nat) :
    ∀ (packs : List (List Nat × Nat)) (i next : Nat) (tl : List IPv4)
      (st r : SlowState),
      r = slowPassAux g nowAt lossDraw reorderDraw delayDraw loss_rate
        reorder_rate c offs packs i next tl st →
      (↑(delayed_sends r) : Multiset SlowSend) +
          ↑(r.buffer.flatMap entry_fanout) +
          ↑(st.enqueued.flatMap entry_fanout) =
        ↑(delayed_sends st) + ↑(st.buffer.flatMap entry_fanout) +
          ↑(r.enqueued.flatMap entry_fanout) := by
  intro packs
  induction packs with
  | nil =>
      intro i next tl st r hr
      subst hr
      rfl
  | cons pp rest ih =>
      obtain ⟨payload, port⟩ := pp
      intro i next tl st r hr
      rw [slowPassAux] at hr
      by_cases href : next ≤ i
      · rw [if_pos href] at hr
        by_cases hne : (g i).isEmpty = true
        · rw [if_pos hne] at hr
          subst hr
          rfl
        · rw [if_neg hne] at hr
          have h1 := ih (i + 1) (i + 500) (g i)
            (slowStep nowAt lossDraw reorderDraw delayDraw loss_rate reorder_rate
              c offs payload port i (g i) st) r hr
          have h2 := slowStep_balance nowAt lossDraw reorderDraw delayDraw loss_rate
            reorder_rate c offs payload port i (g i) st _ rfl
          have key : ((↑(delayed_sends r) : Multiset SlowSend) +
                ↑(r.buffer.flatMap entry_fanout) +
                ↑(st.enqueued.flatMap entry_fanout)) +
              ↑((slowStep nowAt lossDraw reorderDraw delayDraw loss_rate reorder_rate
                c offs payload port i (g i) st).enqueued.flatMap entry_fanout) =
              (↑(delayed_sends st) + ↑(st.buffer.flatMap entry_fanout) +
                ↑(r.enqueued.flatMap entry_fanout)) +
              ↑((slowStep nowAt lossDraw reorderDraw delayDraw loss_rate reorder_rate
                c offs payload port i (g i) st).enqueued.flatMap entry_fanout) := by
            calc ((↑(delayed_sends r) : Multiset SlowSend) +
                  ↑(r.buffer.flatMap entry_fanout) +
                  ↑(st.enqueued.flatMap entry_fanout)) +
                ↑((slowStep nowAt lossDraw reorderDraw delayDraw loss_rate reorder_rate
                  c offs payload port i (g i) st).enqueued.flatMap entry_fanout)
                = ((↑(delayed_sends r) : Multiset SlowSend) +
                    ↑(r.buffer.flatMap entry_fanout) +
                    ↑((slowStep nowAt lossDraw reorderDraw delayDraw loss_rate
                      reorder_rate c offs payload port i (g i) st).enqueued.flatMap
                        entry_fanout)) +
                  ↑(st.enqueued.flatMap entry_fanout) := by abel
              _ = (↑(delayed_sends (slowStep nowAt lossDraw reorderDraw delayDraw
                      loss_rate reorder_rate c offs payload port i (g i) st)) +
                    ↑((slowStep nowAt lossDraw reorderDraw delayDraw loss_rate
                      reorder_rate c offs payload port i (g i) st).buffer.flatMap
                        entry_fanout) +
                    ↑(r.enqueued.flatMap entry_fanout)) +
                  ↑(st.enqueued.flatMap entry_fanout) := by rw [h1]
              _ = (↑(delayed_sends (slowStep nowAt lossDraw reorderDraw delayDraw
                      loss_rate reorder_rate c offs payload port i (g i) st)) +
                    ↑((slowStep nowAt lossDraw reorderDraw delayDraw loss_rate
                      reorder_rate c offs payload port i (g i) st).buffer.flatMap
                        entry_fanout) +
                    ↑(st.enqueued.flatMap entry_fanout)) +
                  ↑(r.enqueued.flatMap entry_fanout) := by abel
              _ = (↑(delayed_sends st) + ↑(st.buffer.flatMap entry_fanout) +
                    ↑((slowStep nowAt lossDraw reorderDraw delayDraw loss_rate
                      reorder_rate c offs payload port i (g i) st).enqueued.flatMap
                        entry_fanout)) +
                  ↑(r.enqueued.flatMap entry_fanout) := by rw [h2]
              _ = (↑(delayed_sends st) + ↑(st.buffer.flatMap entry_fanout) +
                    ↑(r.enqueued.flatMap entry_fanout)) +
                  ↑((slowStep nowAt lossDraw reorderDraw delayDraw loss_rate
                    reorder_rate c offs payload port i (g i) st).enqueued.flatMap
                      entry_fanout) := by abel
          exact add_right_cancel key
      · rw [if_neg href] at hr
        have h1 := ih (i + 1) next tl
          (slowStep nowAt lossDraw reorderDraw delayDraw loss_rate reorder_rate
            c offs payload port i tl st) r hr
        have h2 := slowStep_balance nowAt lossDraw reorderDraw delayDraw loss_rate
          reorder_rate c offs payload port i tl st _ rfl
        have key : ((↑(delayed_sends r) : Multiset SlowSend) +
              ↑(r.buffer.flatMap entry_fanout) +
              ↑(st.enqueued.flatMap entry_fanout)) +
            ↑((slowStep nowAt lossDraw reorderDraw delayDraw loss_rate reorder_rate
              c offs payload port i tl st).enqueued.flatMap entry_fanout) =
            (↑(delayed_sends st) + ↑(st.buffer.flatMap entry_fanout) +
              ↑(r.enqueued.flatMap entry_fanout)) +
            ↑((slowStep nowAt lossDraw reorderDraw delayDraw loss_rate reorder_rate
              c offs payload port i tl st).enqueued.flatMap entry_fanout) := by
          calc ((↑(delayed_sends r) : Multiset SlowSend) +
                ↑(r.buffer.flatMap entry_fanout) +
                ↑(st.enqueued.flatMap entry_fanout)) +
              ↑((slowStep nowAt lossDraw reorderDraw delayDraw loss_rate reorder_rate
                c offs payload port i tl st).enqueued.flatMap entry_fanout)
              = ((↑(delayed_sends r) : Multiset SlowSend) +
                  ↑(r.buffer.flatMap entry_fanout) +
                  ↑((slowStep nowAt lossDraw reorderDraw delayDraw loss_rate
                    reorder_rate c offs payload port i tl st).enqueued.flatMap
                      entry_fanout)) +
                ↑(st.enqueued.flatMap entry_fanout) := by abel
            _ = (↑(delayed_sends (slowStep nowAt lossDraw reorderDraw delayDraw
                    loss_rate reorder_rate c offs payload port i tl st)) +
                  ↑((slowStep nowAt lossDraw reorderDraw delayDraw loss_rate
                    reorder_rate c offs payload port i tl st).buffer.flatMap
                      entry_fanout) +
                  ↑(r.enqueued.flatMap entry_fanout)) +
                ↑(st.enqueued.flatMap entry_fanout) := by rw [h1]
            _ = (↑(delayed_sends (slowStep nowAt lossDraw reorderDraw delayDraw
                    loss_rate reorder_rate c offs payload port i tl st)) +
                  ↑((slowStep nowAt lossDraw reorderDraw delayDraw loss_rate
                    reorder_rate c offs payload port i tl st).buffer.flatMap
                      entry_fanout) +
                  ↑(st.enqueued.flatMap entry_fanout)) +
                ↑(r.enqueued.flatMap entry_fanout) := by abel
            _ = (↑(delayed_sends st) + ↑(st.buffer.flatMap entry_fanout) +
                  ↑((slowStep nowAt lossDraw reorderDraw delayDraw loss_rate
                    reorder_rate c offs payload port i tl st).enqueued.flatMap
                      entry_fanout)) +
                ↑(r.enqueued.flatMap entry_fanout) := by rw [h2]
            _ = (↑(delayed_sends st) + ↑(st.buffer.flatMap entry_fanout) +
                  ↑(r.enqueued.flatMap entry_fanout)) +
                ↑((slowStep nowAt lossDraw reorderDraw delayDraw loss_rate
                  reorder_rate c offs payload port i tl st).enqueued.flatMap
                    entry_fanout) := by abel
        exact add_right_cancel key

theorem slow_pass_flush_spec (st : SlowState) :
    delayed_sends (slow_pass_flush st) =
        delayed_sends st ++ st.buffer.flatMap entry_fanout ∧
      (slow_pass_flush st).buffer = [] ∧
      (slow_pass_flush st).enqueued = st.enqueued := by
  refine ⟨?_, rfl, rfl⟩
  show ((st.sends ++ (st.buffer.flatMap entry_fanout).map fun s =>
      (true, s)).filter fun x => x.1).map (fun x => x.2) =
    delayed_sends st ++ st.buffer.flatMap entry_fanout
  rw [delayed_sends_append_true]
  rfl

/-- C7: after a full slow-path pass (loop plus end-of-pass flush) the reorder
buffer is empty and the multiset of buffer-released sends equals, entry for
entry, the fan-out of every entry ever placed in the buffer to the target
list captured when it was delayed; the per-tick release scan releases
exactly the entries whose release time is at or before the observed time,
and the flush releases the rest unconditionally. -/
theorem reorder_buffer_all_released (g : Nat → List IPv4)
    (nowAt lossDraw reorderDraw delayDraw : Nat → Rat)
    (loss_rate reorder_rate : Rat) (c : Bool) (offs : Nat → Option Nat)
    (packs : List (List Nat × Nat)) (tl0 : List IPv4) :
    (slowPass g nowAt lossDraw reorderDraw delayDraw loss_rate reorder_rate c offs
        packs tl0).buffer = [] ∧
    (↑(delayed_sends (slowPass g nowAt lossDraw reorderDraw delayDraw loss_rate
        reorder_rate c offs packs tl0)) : Multiset SlowSend) =
      ↑((slowPass g nowAt lossDraw reorderDraw delayDraw loss_rate reorder_rate c
        offs packs tl0).enqueued.flatMap entry_fanout) ∧
    (∀ (now : Rat) (buf : List ReorderEntry),
      process_reorder_buffer now buf =
        ((buf.filter fun e => !(decide (e.time ≤ now))),
          (buf.filter fun e => decide (e.time ≤ now)).flatMap entry_fanout)) := by
  have hinv := slowPassAux_balance g nowAt lossDraw reorderDraw delayDraw loss_rate
    reorder_rate c offs packs 0 500 tl0 init_slow_state _ rfl
  have hflush := slow_pass_flush_spec (slowPassAux g nowAt lossDraw reorderDraw
    delayDraw loss_rate reorder_rate c offs packs 0 500 tl0 init_slow_state)
  refine ⟨hflush.2.1, ?_, ?_⟩
  · show (↑(delayed_sends (slow_pass_flush _)) : Multiset SlowSend) = _
    rw [hflush.1, ← Multiset.coe_add]
    have hinit : delayed_sends init_slow_state = [] := rfl
    rw [hinit] at hinv
    have hinv' : (↑(delayed_sends (slowPassAux g nowAt lossDraw reorderDraw delayDraw
        loss_rate reorder_rate c offs packs 0 500 tl0 init_slow_state)) :
          Multiset SlowSend) +
        ↑((slowPassAux g nowAt lossDraw reorderDraw delayDraw loss_rate reorder_rate
          c offs packs 0 500 tl0 init_slow_state).buffer.flatMap entry_fanout) =
        ↑((slowPassAux g nowAt lossDraw reorderDraw delayDraw loss_rate reorder_rate
          c offs packs 0 500 tl0 init_slow_state).enqueued.flatMap entry_fanout) := by
      have h0 : ((init_slow_state.enqueued.flatMap entry_fanout : List SlowSend) :
          Multiset SlowSend) = 0 := rfl
      have h1 : ((init_slow_state.buffer.flatMap entry_fanout : List SlowSend) :
          Multiset SlowSend) = 0 := rfl
      rw [h0, h1] at hinv
      simpa using hinv
    rw [hinv']
    show _ = (↑((slow_pass_flush _).enqueued.flatMap entry_fanout) : Multiset SlowSend)
    rw [hflush.2.2]
  · intro now buf
    induction buf with
    | nil => rfl
    | cons e rest ihb =>
        by_cases hle : e.time ≤ now
        · simp only [process_reorder_buffer, List.filter_cons, if_pos hle, ihb]
          simp [hle, List.flatMap_cons]
        · simp only [process_reorder_buffer, List.filter_cons, if_neg hle, ihb]
          simp [hle]
